import Mathlib

/-!
Shallow embedding of the SNMP query engine and configuration handling of
`src/main.py` of the telman repository: `SNMPManager.validate_oid`,
`SNMPManager.get_snmp_value`, `SNMPManager.walk_snmp_tree`,
`TelegramBot.update_snmp_config` and `CommandHandlers.snmp_config`.

The network is modelled as an explicit input (`Net`): what exception, if
any, the transport/engine setup raises, which
`(errorIndication, errorStatus, errorIndex, varBinds)` tuples the awaited
pysnmp iteration yields, and which exception, if any, the iteration raises
after those tuples.  Python exceptions are modelled with `Except`;
the result dictionaries of the Python code are modelled by `PyDict`, a
record of the keys the code ever places in those dictionaries.
Each engine call also reports the list of requests it issued (`NetOp`),
so that statements about "no network I/O" and about which endpoint a call
targets can be made.
-/

namespace Telman

/-- Fields of `SNMPManager.__init__`: target host, community string, port. -/
structure SNMPManager where
  target_host : String
  community : String
  port : Int
deriving DecidableEq

/-- One varbind, as the code renders it: `str(varBind[0])`, `str(varBind[1])`
and `type(varBind[1]).__name__`. -/
structure VarBind where
  oidStr : String
  valueStr : String
  typeName : String
deriving DecidableEq

/-- One `(errorIndication, errorStatus, errorIndex, varBinds)` tuple yielded
by the awaited pysnmp iteration.  The first two components are `none` when
falsy; a present `errorStatus` carries its `prettyPrint()` text.
`errorIndex` is the integer error index (`0` when falsy). -/
structure SnmpTuple where
  errorIndication : Option String
  errorStatus : Option String
  errorIndex : Nat
  varBinds : List VarBind
deriving DecidableEq

/-- Python `Exception` values relevant to the `try/except` structure of
`get_snmp_value` and `walk_snmp_tree`.  (`BaseException`-only faults such as
cancellation are not `Exception`s and are outside the engine's contract.) -/
inductive PyExn where
  | attrError (msg : String)
  | timeoutError (msg : String)
  | indexError (msg : String)
  | otherError (msg : String)
deriving DecidableEq

/-- `str(e)` of an exception. -/
def PyExn.text : PyExn → String
  | .attrError m => m
  | .timeoutError m => m
  | .indexError m => m
  | .otherError m => m

/-- Behaviour of the awaited pysnmp iteration: the tuples it yields in order,
then optionally an exception raised when the iteration is pulled past them. -/
structure AgentRun where
  tuples : List SnmpTuple
  after : Option PyExn
deriving DecidableEq

/-- One modelled network interaction.  `setup` is an exception raised while
building `SnmpEngine`/`UdpTransportTarget`/the command generator (before any
request goes out); `run` is the behaviour of the awaited iteration. -/
structure Net where
  setup : Option PyExn
  run : AgentRun
deriving DecidableEq

/-- The result dictionaries the Python code returns.  A field is `none` when
the corresponding key is absent from the dictionary built at that return
site. -/
structure PyDict where
  success : Bool
  error : Option String
  oid : Option String
  value : Option String
  type : Option String
  results : Option (List (String × String))
  count : Option Nat
deriving DecidableEq

/-- The one request a call issues: the `(host, port)` transport target, the
community string and the (normalized) OID handed to `ObjectIdentity`. -/
structure NetOp where
  host : String
  port : Int
  community : String
  oid : String
deriving DecidableEq

/-- State of `TelegramBot` relevant to the claims: its `snmp_manager`. -/
structure BotState where
  snmp_manager : SNMPManager
deriving DecidableEq

/-- Matcher for Python `re.match(r'^\.?(\d+\.)*\d+$', s)` after the optional
leading dot has been removed.  The flag is `true` while at the start of a
digit segment (at least one digit still required).  Python's `$` (without
`re.MULTILINE`) matches at the end of the string and also just before a
newline that ends the string, which the last line reflects. -/
def scanPy : Bool → List Char → Bool
  | true, [] => false
  | false, [] => true
  | true, c :: rest => if c.isDigit then scanPy false rest else false
  | false, c :: rest =>
    if c.isDigit then scanPy false rest
    else if c = '.' then scanPy true rest
    else decide (c = '\n' ∧ rest = [])

/-- The same matcher restricted to the mathematical language
`^\.?(\d+\.)*\d+$` (no treatment of a trailing newline). -/
def scanSpec : Bool → List Char → Bool
  | true, [] => false
  | false, [] => true
  | true, c :: rest => if c.isDigit then scanSpec false rest else false
  | false, c :: rest =>
    if c.isDigit then scanSpec false rest
    else if c = '.' then scanSpec true rest
    else false

/-- Strip one leading dot, as the optional `\.?` of the pattern does.
(Backtracking makes the greedy strip equivalent: when the input starts with
a dot and the rest fails, retrying without consuming the dot cannot succeed,
because `\d+` never matches a dot.) -/
def dropDot : List Char → List Char
  | [] => []
  | c :: rest => if c = '.' then rest else c :: rest

/-- `SNMPManager.validate_oid`: `bool(re.match(r'^\.?(\d+\.)*\d+$', oid))`,
with Python's end-of-string semantics for `$`. -/
def validate_oid (oid : String) : Bool :=
  scanPy true (dropDot oid.data)

/-- Modelled from the spec: membership in the language `^\.?(\d+\.)*\d+$` —
one or more dot-separated nonnegative decimal integers after an optional
leading dot, with no other characters at all.  Used to compare the source's
validator against the language named by the spec. -/
def specOidLang (s : String) : Bool :=
  scanSpec true (dropDot s.data)

/-- If the list ends with a newline character, the list without it. -/
def dropNl : List Char → Option (List Char)
  | [] => none
  | c :: rest =>
    match rest with
    | [] => if c = '\n' then some [] else none
    | _ :: _ => (dropNl rest).map (fun ds => c :: ds)

/-- Remove a single trailing newline, if present. -/
def stripTrailingNewline (s : String) : String :=
  match dropNl s.data with
  | some ds => String.mk ds
  | none => s

/-- `if not oid.startswith('.'): oid = '.' + oid`. -/
def normalizeOid (oid : String) : String :=
  match oid.data with
  | '.' :: _ => oid
  | _ => "." ++ oid

/-- The entry `{"oid": ..., "value": ...}` appended per walk varbind. -/
def bindsOf (vbs : List VarBind) : List (String × String) :=
  vbs.map (fun vb => (vb.oidStr, vb.valueStr))

/-- All bindings the agent produces, in traversal order. -/
def flatBinds : List SnmpTuple → List (String × String)
  | [] => []
  | t :: rest => bindsOf t.varBinds ++ flatBinds rest

/-- All bindings of a network behaviour, in traversal order. -/
def agentBindings (net : Net) : List (String × String) :=
  flatBinds net.run.tuples

/-- The `{"success": False, "error": msg}` dictionary. -/
def failDict (msg : String) : PyDict :=
  PyDict.mk false (some msg) none none none none none

/-- The success dictionary of `get_snmp_value`. -/
def successGetDict (o v ty : String) : PyDict :=
  PyDict.mk true none (some o) (some v) (some ty) none none

/-- The success dictionary of `walk_snmp_tree`. -/
def successWalkDict (rs : List (String × String)) (n : Nat) : PyDict :=
  PyDict.mk true none none none none (some rs) (some n)

def invalidOidMsgGet : String :=
  "Invalid OID format. OID should contain only numbers and dots (e.g., 1.3.6.1.2.1.1.1.0)"

def invalidOidMsgWalk : String :=
  "Invalid OID format"

def errIndMsgGet (ind : String) : String :=
  "SNMP Error: " ++ ind ++ ". Check if the target device is reachable and SNMP is enabled."

def errStatusMsgGet (es loc : String) : String :=
  "SNMP Error: " ++ es ++ " at " ++ loc

def attrMsg (m : String) : String :=
  "SNMP AttributeError: " ++ m ++ ". Ensure the correct pysnmp version is installed."

def noDataMsg : String :=
  "No data received from SNMP query. Verify the OID and target configuration."

def timeoutMsgGet : String :=
  "SNMP request timed out. Check if the target device is reachable or increase timeout."

def connMsg (m : String) : String :=
  "Connection error: " ++ m ++ ". Ensure the SNMP target is configured correctly."

def errIndMsgWalk (ind : String) : String :=
  "SNMP surging: " ++ ind ++ ". Check if the target device is reachable and SNMP is enabled."

def errStatusMsgWalk (es : String) : String :=
  "SNMP Error: " ++ es

def timeoutMsgWalk : String :=
  "SNMP walk timed out. Check if the target device is reachable or increase timeout."

/-- Outcome of the `async for` loop body of `get_snmp_value`. -/
inductive GetStep where
  | ret (d : PyDict)
  | done
  | raised (e : PyExn)
deriving DecidableEq

/-- The `async for` loop of `get_snmp_value` (lines 88–111): for each tuple,
an error indication returns a failure; a truthy error status evaluates
`errorIndex and varBinds[int(errorIndex) - 1][0] or '?'` — when `errorIndex`
is falsy (0) the `and` short-circuits and `or` yields `'?'`; when it is
nonzero the list is indexed, raising `IndexError` if out of range, and a
falsy (empty) resolved name still falls back to `'?'`; otherwise the first
varbind is returned as success, an empty `varBinds` moving on to the next
tuple.  Exhausting the iteration raises the agent's trailing exception if
any, else falls through (`GetStep.done`). -/
def getTuples (after : Option PyExn) : List SnmpTuple → GetStep
  | [] =>
    match after with
    | some e => GetStep.raised e
    | none => GetStep.done
  | t :: rest =>
    match t.errorIndication with
    | some ind => GetStep.ret (failDict (errIndMsgGet ind))
    | none =>
      match t.errorStatus with
      | some es =>
        if t.errorIndex = 0 then GetStep.ret (failDict (errStatusMsgGet es "?"))
        else
          match t.varBinds.get? (t.errorIndex - 1) with
          | none => GetStep.raised (PyExn.indexError "list index out of range")
          | some vb =>
            GetStep.ret (failDict (errStatusMsgGet es
              (if vb.oidStr = "" then "?" else vb.oidStr)))
      | none =>
        match t.varBinds with
        | [] => getTuples after rest
        | vb :: _ => GetStep.ret (successGetDict vb.oidStr vb.valueStr vb.typeName)

/-- Body of `get_snmp_value` inside the outer `try`, with the inner
`except AttributeError` applied; `Except.error` is an exception that escapes
to the outer handlers.  The second component lists the requests issued. -/
def getBody (mgr : SNMPManager) (oid : String) (net : Net) :
    Except PyExn PyDict × List NetOp :=
  if validate_oid oid = false then (Except.ok (failDict invalidOidMsgGet), [])
  else
    match net.setup with
    | some e => (Except.error e, [])
    | none =>
      let op : NetOp := NetOp.mk mgr.target_host mgr.port mgr.community (normalizeOid oid)
      match getTuples net.run.after net.run.tuples with
      | GetStep.ret d => (Except.ok d, [op])
      | GetStep.done => (Except.ok (failDict noDataMsg), [op])
      | GetStep.raised e =>
        match e with
        | PyExn.attrError m => (Except.ok (failDict (attrMsg m)), [op])
        | e1 => (Except.error e1, [op])

/-- `SNMPManager.get_snmp_value` (lines 58–136): the body wrapped by
`except TimeoutError` and `except Exception`. -/
def get_snmp_value (mgr : SNMPManager) (oid : String) (net : Net) :
    Except PyExn PyDict × List NetOp :=
  match getBody mgr oid net with
  | (Except.ok d, tr) => (Except.ok d, tr)
  | (Except.error (PyExn.timeoutError _), tr) => (Except.ok (failDict timeoutMsgGet), tr)
  | (Except.error e, tr) => (Except.ok (failDict (connMsg e.text)), tr)

/-- Outcome of the `async for` loop of `walk_snmp_tree`. -/
inductive WalkStep where
  | failed (d : PyDict)
  | raised (e : PyExn)
  | done (acc : List (String × String)) (count : Nat)
deriving DecidableEq

/-- The inner `for varBind in varBinds` loop of `walk_snmp_tree`
(lines 185–196): append the entry, increment `count`, break as soon as
`count >= max_results`. -/
def walkBinds (maxR : Int) : List VarBind → List (String × String) → Nat →
    List (String × String) × Nat
  | [], acc, count => (acc, count)
  | vb :: rest, acc, count =>
    let acc1 := acc ++ [(vb.oidStr, vb.valueStr)]
    let count1 := count + 1
    if maxR ≤ (count1 : Int) then (acc1, count1)
    else walkBinds maxR rest acc1 count1

/-- The `async for` loop of `walk_snmp_tree` (lines 171–199): per tuple, an
error indication or truthy error status returns a failure dictionary;
otherwise varbinds are accumulated and the loop breaks once
`count >= max_results`.  Exhausting the iteration raises the agent's
trailing exception if any. -/
def walkTuples (maxR : Int) (after : Option PyExn) :
    List SnmpTuple → List (String × String) → Nat → WalkStep
  | [], acc, count =>
    match after with
    | some e => WalkStep.raised e
    | none => WalkStep.done acc count
  | t :: rest, acc, count =>
    match t.errorIndication with
    | some ind => WalkStep.failed (failDict (errIndMsgWalk ind))
    | none =>
      match t.errorStatus with
      | some es => WalkStep.failed (failDict (errStatusMsgWalk es))
      | none =>
        let p := walkBinds maxR t.varBinds acc count
        if maxR ≤ (p.2 : Int) then WalkStep.done p.1 p.2
        else walkTuples maxR after rest p.1 p.2

/-- Body of `walk_snmp_tree` inside the outer `try`, with the inner
`except AttributeError` applied. -/
def walkBody (mgr : SNMPManager) (oid : String) (maxR : Int) (net : Net) :
    Except PyExn PyDict × List NetOp :=
  if validate_oid oid = false then (Except.ok (failDict invalidOidMsgWalk), [])
  else
    match net.setup with
    | some e => (Except.error e, [])
    | none =>
      let op : NetOp := NetOp.mk mgr.target_host mgr.port mgr.community (normalizeOid oid)
      match walkTuples maxR net.run.after net.run.tuples [] 0 with
      | WalkStep.failed d => (Except.ok d, [op])
      | WalkStep.done acc count => (Except.ok (successWalkDict acc count), [op])
      | WalkStep.raised e =>
        match e with
        | PyExn.attrError m => (Except.ok (failDict (attrMsg m)), [op])
        | e1 => (Except.error e1, [op])

/-- `SNMPManager.walk_snmp_tree` (lines 138–225): the body wrapped by
`except TimeoutError` and `except Exception`. -/
def walk_snmp_tree (mgr : SNMPManager) (oid : String) (maxR : Int) (net : Net) :
    Except PyExn PyDict × List NetOp :=
  match walkBody mgr oid maxR net with
  | (Except.ok d, tr) => (Except.ok d, tr)
  | (Except.error (PyExn.timeoutError _), tr) => (Except.ok (failDict timeoutMsgWalk), tr)
  | (Except.error e, tr) => (Except.ok (failDict (connMsg e.text)), tr)

/-- `TelegramBot.update_snmp_config`: `self.snmp_manager = SNMPManager(host,
community, port)` — a brand-new manager, nothing kept from the old one. -/
def update_snmp_config (bot : BotState) (host community : String) (port : Int) :
    BotState :=
  BotState.mk (SNMPManager.mk host community port)

/-- Strip leading and trailing whitespace, as `int(...)` tolerates. -/
def pyStrip (cs : List Char) : List Char :=
  ((cs.dropWhile Char.isWhitespace).reverse.dropWhile Char.isWhitespace).reverse

/-- Value of a nonempty all-digit run, accumulator style. -/
def decVal : List Char → Nat → Option Nat
  | [], acc => some acc
  | c :: rest, acc =>
    if c.isDigit then decVal rest (acc * 10 + (c.toNat - 48)) else none

/-- Value of a nonempty decimal digit string; `none` otherwise. -/
def digitsToNat : List Char → Option Nat
  | [] => none
  | c :: rest => decVal (c :: rest) 0

/-- Python `int(s)` on the strings the handler can meet: optional surrounding
whitespace, optional sign, one or more decimal digits; `none` models the
`ValueError` raised otherwise. -/
def pyInt (s : String) : Option Int :=
  match pyStrip s.data with
  | '+' :: ds => (digitsToNat ds).map (fun n => (n : Int))
  | '-' :: ds => (digitsToNat ds).map (fun n => -(n : Int))
  | cs => (digitsToNat cs).map (fun n => (n : Int))

def invalidPortReply : String :=
  "❌ Invalid port number. Port must be a number."

def configUpdatedReply (host community : String) (port : Int) : String :=
  "✅ **SNMP Configuration Updated**\n\n**Host:** " ++ host ++
  "\n**Community:** " ++ community ++ "\n**Port:** " ++ toString port ++
  "\n\nYou can now use `/snmp` and `/snmpwalk` commands with this configuration."

def snmpConfigHelpText : String :=
  "⚙️ **SNMP Configuration**\n\nUsage: `/snmpconfig <host> [community] [port]`\n\n**Parameters:**\n• `host` - SNMP target IP address (required)\n• `community` - SNMP community string (default: public)\n• `port` - SNMP port (default: 161)\n\n**Examples:**\n• `/snmpconfig 192.168.1.1`\n• `/snmpconfig 192.168.1.1 public`\n• `/snmpconfig 192.168.1.1 private 161`\n\nUse `/snmpstatus` to view current configuration."

/-- `CommandHandlers.snmp_config` (lines 559–605), for the case where the bot
instance is available: no arguments shows the help; otherwise
`host = args[0]`, `community = args[1] if len > 1 else "public"`,
`port = int(args[2]) if len > 2 else 161` — the `int` call raising
`ValueError` (non-numeric port) is answered with the invalid-port reply
before any state is touched; otherwise the configuration is replaced and the
updated-reply sent.  Returns the bot state after the command and the reply
text. -/
def snmp_config (bot : BotState) (args : List String) : BotState × String :=
  match args with
  | [] => (bot, snmpConfigHelpText)
  | host :: rest =>
    let community := match rest.head? with | some c => c | none => "public"
    match rest with
    | _ :: portStr :: _ =>
      (match pyInt portStr with
       | none => (bot, invalidPortReply)
       | some p => (update_snmp_config bot host community p,
                    configUpdatedReply host community p))
    | _ => (update_snmp_config bot host community 161,
            configUpdatedReply host community 161)

/-- A call that read its configuration snapshot at entry, with a
reconfiguration happening while it is in flight: the first component is the
in-flight call's outcome (computed from the snapshot), the second the bot
state after the reconfiguration. -/
def inflightSnapshot (bot : BotState) (oid : String) (net : Net)
    (host community : String) (port : Int) :
    (Except PyExn PyDict × List NetOp) × BotState :=
  (get_snmp_value bot.snmp_manager oid net, update_snmp_config bot host community port)

/-! Concrete values used by counterexamples and witnesses. -/

def mgr0 : SNMPManager := SNMPManager.mk "192.168.137.130" "public" 161

def bot0 : BotState := BotState.mk mgr0

def netEmpty : Net := Net.mk none (AgentRun.mk [] none)

def vbA : VarBind := VarBind.mk "1.3.6.1.2.1.1.1.0" "Linux router" "OctetString"

def vbB : VarBind := VarBind.mk "1.3.6.1.2.1.1.2.0" "1.3.6.1.4.1.8072" "ObjectIdentity"

def vbC : VarBind := VarBind.mk "1.3.6.1.2.1.1.3.0" "12345" "TimeTicks"

/-- Agent yielding one tuple with one binding, no errors. -/
def netOneBinding : Net := Net.mk none (AgentRun.mk [SnmpTuple.mk none none 0 [vbA]] none)

/-- Agent yielding one tuple with two bindings, no errors. -/
def netTwoBindings : Net := Net.mk none (AgentRun.mk [SnmpTuple.mk none none 0 [vbB, vbC]] none)

/-- Agent yielding three bindings across two tuples, no errors. -/
def netThreeBindings : Net :=
  Net.mk none (AgentRun.mk
    [SnmpTuple.mk none none 0 [vbA, vbB], SnmpTuple.mk none none 0 [vbC]] none)

/-- Protocol error status `noSuchName` reported at index 1 with an empty
bound list: the index cannot be resolved to a binding. -/
def netStatusOutOfRange : Net :=
  Net.mk none (AgentRun.mk [SnmpTuple.mk none (some "noSuchName") 1 []] none)

/-- Protocol error status with falsy (zero) error index. -/
def netStatusIdxZero : Net :=
  Net.mk none (AgentRun.mk [SnmpTuple.mk none (some "noSuchObject") 0 [vbA]] none)

/-- Protocol error status at index 2 with only one binding in the list. -/
def netStatusIdxTwo : Net :=
  Net.mk none (AgentRun.mk [SnmpTuple.mk none (some "genErr") 2 [vbA]] none)

/-! General helper lemmas about the embedded engine. -/

/-- The outer `except` chain of `get_snmp_value` keeps the trace of the body. -/
theorem get_trace_eq_body (mgr : SNMPManager) (oid : String) (net : Net) :
    (get_snmp_value mgr oid net).2 = (getBody mgr oid net).2 := by
  rcases hb : getBody mgr oid net with ⟨r, tr⟩
  cases r with
  | ok d => simp [get_snmp_value, hb]
  | error e => cases e <;> simp [get_snmp_value, hb]

/-- On every path that passes validation and survives setup, `get_snmp_value`
issues exactly one request, built from the manager's fields and the
normalized OID. -/
theorem getBody_trace (mgr : SNMPManager) (oid : String) (net : Net)
    (hv : validate_oid oid = true) (hs : net.setup = none) :
    (getBody mgr oid net).2
      = [NetOp.mk mgr.target_host mgr.port mgr.community (normalizeOid oid)] := by
  simp only [getBody, hv, Bool.true_eq_false, if_false, hs]
  cases hstep : getTuples net.run.after net.run.tuples with
  | ret d => simp
  | done => simp
  | raised e => cases e <;> simp

/-! Theorems for the claims. -/

/-- `scanPy` on the empty input accepts iff no digit is still expected. -/
theorem scanPy_nil (b : Bool) : scanPy b [] = !b := by
  cases b <;> rfl

/-- `scanSpec` on the empty input accepts iff no digit is still expected. -/
theorem scanSpec_nil (b : Bool) : scanSpec b [] = !b := by
  cases b <;> rfl

/-- Unfolding equation for `scanPy` at the digit-expected state. -/
theorem scanPy_cons_true (c : Char) (rest : List Char) :
    scanPy true (c :: rest) = if c.isDigit then scanPy false rest else false := rfl

/-- Unfolding equation for `scanPy` after at least one digit. -/
theorem scanPy_cons_false (c : Char) (rest : List Char) :
    scanPy false (c :: rest)
      = if c.isDigit then scanPy false rest
        else if c = '.' then scanPy true rest
        else decide (c = '\n' ∧ rest = []) := rfl

/-- Unfolding equation for `scanSpec` at the digit-expected state. -/
theorem scanSpec_cons_true (c : Char) (rest : List Char) :
    scanSpec true (c :: rest) = if c.isDigit then scanSpec false rest else false := rfl

/-- Unfolding equation for `scanSpec` after at least one digit. -/
theorem scanSpec_cons_false (c : Char) (rest : List Char) :
    scanSpec false (c :: rest)
      = if c.isDigit then scanSpec false rest
        else if c = '.' then scanSpec true rest
        else false := rfl

/-- Unfolding equation for `dropNl` on a list of two or more characters. -/
theorem dropNl_cons_cons (c c2 : Char) (rest2 : List Char) :
    dropNl (c :: c2 :: rest2) = (dropNl (c2 :: rest2)).map (fun ds => c :: ds) := rfl

/-- `dropNl` succeeds exactly on lists ending with a newline. -/
theorem dropNl_eq_some (cs : List Char) :
    ∀ ds, dropNl cs = some ds → cs = ds ++ ['\n'] := by
  induction cs with
  | nil =>
    intro ds h
    simp [dropNl] at h
  | cons c rest ih =>
    intro ds h
    cases rest with
    | nil =>
      by_cases hc : c = '\n'
      · subst hc
        have hds : ds = [] := by simpa [dropNl] using h.symm
        subst hds
        rfl
      · simp [dropNl, hc] at h
    | cons c2 rest2 =>
      rw [dropNl_cons_cons] at h
      cases hdn : dropNl (c2 :: rest2) with
      | none =>
        rw [hdn] at h
        simp at h
      | some ds2 =>
        rw [hdn] at h
        simp at h
        rw [← h, List.cons_append, ← ih ds2 hdn]

/-- On the Python matcher, a single trailing newline behaves exactly like
the end of input for the strict matcher: Python's `$` matches there. -/
theorem scanPy_append_nl (ds : List Char) :
    ∀ b, scanPy b (ds ++ ['\n']) = scanSpec b ds := by
  induction ds with
  | nil =>
    intro b
    cases b <;> decide
  | cons c ds2 ih =>
    intro b
    cases b with
    | true =>
      rw [List.cons_append, scanPy_cons_true, scanSpec_cons_true]
      by_cases hd : c.isDigit <;> simp [hd, ih]
    | false =>
      rw [List.cons_append, scanPy_cons_false, scanSpec_cons_false]
      by_cases hd : c.isDigit
      · simp [hd, ih]
      · by_cases hp : c = '.'
        · simp [hd, hp, ih]
        · simp [hd, hp]

/-- On inputs not ending in a newline, the Python matcher and the strict
matcher agree. -/
theorem scanPy_eq_spec_of_no_nl (cs : List Char) :
    ∀ b, dropNl cs = none → scanPy b cs = scanSpec b cs := by
  induction cs with
  | nil =>
    intro b _
    cases b <;> rfl
  | cons c rest ih =>
    intro b h
    cases rest with
    | nil =>
      have hc : ¬ c = '\n' := by
        intro he
        subst he
        simp [dropNl] at h
      cases b with
      | true =>
        by_cases hd : c.isDigit <;>
          simp [scanPy_cons_true, scanSpec_cons_true, scanPy_nil, scanSpec_nil, hd]
      | false =>
        by_cases hd : c.isDigit
        · simp [scanPy_cons_false, scanSpec_cons_false, scanPy_nil, scanSpec_nil, hd]
        · by_cases hp : c = '.'
          · simp [scanPy_cons_false, scanSpec_cons_false, scanPy_nil, scanSpec_nil, hd, hp]
          · simp [scanPy_cons_false, scanSpec_cons_false, hd, hp, hc]
    | cons c2 rest2 =>
      have h2 : dropNl (c2 :: rest2) = none := by
        rw [dropNl_cons_cons] at h
        cases hdn : dropNl (c2 :: rest2) with
        | none => rfl
        | some ds =>
          rw [hdn] at h
          simp at h
      cases b with
      | true =>
        by_cases hd : c.isDigit <;>
          simp [scanPy_cons_true, scanSpec_cons_true, hd, ih false h2]
      | false =>
        by_cases hd : c.isDigit
        · simp [scanPy_cons_false, scanSpec_cons_false, hd, ih false h2]
        · by_cases hp : c = '.'
          · simp [scanPy_cons_false, scanSpec_cons_false, hd, hp, ih true h2]
          · simp [scanPy_cons_false, scanSpec_cons_false, hd, hp]

/-- Stripping the optional leading dot commutes with a trailing newline. -/
theorem dropDot_append_nl (ds : List Char) :
    dropDot (ds ++ ['\n']) = dropDot ds ++ ['\n'] := by
  cases ds with
  | nil => decide
  | cons c ds2 => by_cases hc : c = '.' <;> simp [dropDot, hc]

/-- Stripping the optional leading dot preserves not-ending-in-newline. -/
theorem dropDot_dropNl_none {cs : List Char} (h : dropNl cs = none) :
    dropNl (dropDot cs) = none := by
  cases cs with
  | nil => rfl
  | cons c rest =>
    by_cases hc : c = '.'
    · subst hc
      cases rest with
      | nil => rfl
      | cons c2 rest2 =>
        rw [dropNl_cons_cons] at h
        have h2 : dropNl (c2 :: rest2) = none := by
          cases hdn : dropNl (c2 :: rest2) with
          | none => rfl
          | some ds =>
            rw [hdn] at h
            simp at h
        simp [dropDot, h2]
    · simp [dropDot, hc, h]

/-- Claim C5 counterexample: a valid OID followed by a single trailing
newline is accepted by the source's validator, although it lies outside the
language `^\.?(\d+\.)*\d+$` that the claim says is exactly accepted —
Python's `$` also matches just before a string-final newline. -/
theorem validate_newline_counterexample :
    validate_oid "1.3\n" = true ∧ specOidLang "1.3\n" = false :=
  ⟨by decide, by decide⟩

/-- Claim C5 amended: `validate_oid` accepts exactly the strings that,
after removal of at most one trailing newline, lie in the language
`^\.?(\d+\.)*\d+$`; on newline-free strings this is precisely the language
of the claim. -/
theorem validate_amended (s : String) :
    validate_oid s = specOidLang (stripTrailingNewline s) := by
  unfold validate_oid specOidLang stripTrailingNewline
  cases hdn : dropNl s.data with
  | none => exact scanPy_eq_spec_of_no_nl _ true (dropDot_dropNl_none hdn)
  | some ds =>
    have hcs : s.data = ds ++ ['\n'] := dropNl_eq_some _ ds hdn
    rw [hcs, dropDot_append_nl, scanPy_append_nl]

/-- Claim C1: for every input string and every modelled network behaviour —
malformed identifiers, unreachable hosts and malformed replies (error
indications), and any `Exception` raised by the protocol stack at setup,
during iteration or after it — `get_snmp_value` returns a tagged result
dictionary and never lets an exception escape its boundary. -/
theorem getValue_never_raises (mgr : SNMPManager) (oid : String) (net : Net) :
    ∃ d tr, get_snmp_value mgr oid net = (Except.ok d, tr) := by
  rcases hb : getBody mgr oid net with ⟨r, tr⟩
  cases r with
  | ok d => exact ⟨d, tr, by simp [get_snmp_value, hb]⟩
  | error e =>
    cases e with
    | attrError m => exact ⟨failDict (connMsg m), tr, by simp [get_snmp_value, hb, PyExn.text]⟩
    | timeoutError m => exact ⟨failDict timeoutMsgGet, tr, by simp [get_snmp_value, hb]⟩
    | indexError m => exact ⟨failDict (connMsg m), tr, by simp [get_snmp_value, hb, PyExn.text]⟩
    | otherError m => exact ⟨failDict (connMsg m), tr, by simp [get_snmp_value, hb, PyExn.text]⟩

/-- Claim C8: a string failing identifier validation makes `get_snmp_value`
return the invalid-format failure while issuing zero requests, and the
outcome is identical for any two network behaviours. -/
theorem get_invalid_no_network (mgr : SNMPManager) (net net2 : Net) (oid : String)
    (h : validate_oid oid = false) :
    get_snmp_value mgr oid net = (Except.ok (failDict invalidOidMsgGet), ([] : List NetOp))
    ∧ get_snmp_value mgr oid net = get_snmp_value mgr oid net2 := by
  have hb : ∀ n : Net, getBody mgr oid n = (Except.ok (failDict invalidOidMsgGet), []) := by
    intro n
    simp [getBody, h]
  constructor
  · simp [get_snmp_value, hb net]
  · simp [get_snmp_value, hb net, hb net2]

/-- Witness for C8 at the spec's own scenario input `"not-an-oid"`. -/
theorem get_invalid_no_network_witness :
    get_snmp_value mgr0 "not-an-oid" netOneBinding
      = (Except.ok (failDict invalidOidMsgGet), ([] : List NetOp))
    ∧ get_snmp_value mgr0 "not-an-oid" netOneBinding
      = get_snmp_value mgr0 "not-an-oid" netEmpty :=
  get_invalid_no_network mgr0 netOneBinding netEmpty "not-an-oid" (by decide)

/-- Claim C3 counterexample: a protocol error status whose error index (1)
is out of range for the empty bound list does not yield the claimed
`... at ?` failure; the out-of-range access raises `IndexError`, which the
generic handler turns into the connection-error message instead. -/
theorem errindex_counterexample :
    (get_snmp_value mgr0 "1.3" netStatusOutOfRange).1
      = Except.ok (failDict (connMsg "list index out of range"))
    ∧ connMsg "list index out of range" ≠ errStatusMsgGet "noSuchName" "?" := by
  exact ⟨rfl, by decide⟩

/-- Claim C3 amended: on a protocol error status, the `?` fallback is used
exactly when the reported error index is falsy (zero); a nonzero index that
is out of range for the bound list instead raises `IndexError` internally,
which surfaces as the generic connection-error failure. -/
theorem errindex_amended (mgr : SNMPManager) (oid : String) (net : Net)
    (es : String) (idx : Nat) (vbs : List VarBind) (rest : List SnmpTuple)
    (hv : validate_oid oid = true) (hs : net.setup = none)
    (ht : net.run.tuples = SnmpTuple.mk none (some es) idx vbs :: rest) :
    (idx = 0 →
      (get_snmp_value mgr oid net).1 = Except.ok (failDict (errStatusMsgGet es "?")))
    ∧ (vbs.length < idx →
      (get_snmp_value mgr oid net).1
        = Except.ok (failDict (connMsg "list index out of range"))) := by
  constructor
  · intro h0
    have hstep : getTuples net.run.after net.run.tuples
        = GetStep.ret (failDict (errStatusMsgGet es "?")) := by
      rw [ht]
      simp [getTuples, h0]
    simp [get_snmp_value, getBody, hv, hs, hstep]
  · intro hlen
    have hidx : ¬ idx = 0 := by omega
    have hget : vbs[idx - 1]? = none := List.getElem?_eq_none (by omega)
    have hstep : getTuples net.run.after net.run.tuples
        = GetStep.raised (PyExn.indexError "list index out of range") := by
      rw [ht]
      simp [getTuples, hidx, hget]
    simp [get_snmp_value, getBody, hv, hs, hstep, PyExn.text]

/-- Witness for the amended C3: both the zero-index `?` fallback and the
out-of-range `IndexError` path at concrete inputs. -/
theorem errindex_amended_witness :
    (get_snmp_value mgr0 "1.3" netStatusIdxZero).1
      = Except.ok (failDict (errStatusMsgGet "noSuchObject" "?"))
    ∧ (get_snmp_value mgr0 "1.3" netStatusIdxTwo).1
      = Except.ok (failDict (connMsg "list index out of range")) :=
  ⟨(errindex_amended mgr0 "1.3" netStatusIdxZero "noSuchObject" 0 [vbA] []
      (by decide) rfl rfl).1 rfl,
   (errindex_amended mgr0 "1.3" netStatusIdxTwo "genErr" 2 [vbA] []
      (by decide) rfl rfl).2 (by decide)⟩

/-- The inner varbind loop keeps `count` equal to the length of `results`. -/
theorem walkBinds_len (maxR : Int) (vbs : List VarBind) :
    ∀ acc c, acc.length = c →
      ((walkBinds maxR vbs acc c).1).length = (walkBinds maxR vbs acc c).2 := by
  induction vbs with
  | nil =>
    intro acc c h
    simpa [walkBinds] using h
  | cons vb rest ih =>
    intro acc c h
    simp only [walkBinds]
    split
    · simp [h]
    · exact ih _ _ (by simp [h])

/-- Exact description of the inner varbind loop while the cap has not been
reached: it appends the first `maxR.toNat - c` entries (or all of them). -/
theorem walkBinds_spec (maxR : Int) (vbs : List VarBind) :
    ∀ (acc : List (String × String)) (c : Nat), (c : Int) < maxR →
      walkBinds maxR vbs acc c
        = (acc ++ (bindsOf vbs).take (maxR.toNat - c),
           c + min (maxR.toNat - c) vbs.length) := by
  induction vbs with
  | nil =>
    intro acc c hc
    simp [walkBinds, bindsOf]
  | cons vb rest ih =>
    intro acc c hc
    simp only [walkBinds]
    split
    · rename_i hle
      have h1 : maxR.toNat - c = 1 := by omega
      rw [h1]
      simp [bindsOf]
    · rename_i hle
      have hrec := ih (acc ++ [(vb.oidStr, vb.valueStr)]) (c + 1) (by omega)
      rw [hrec]
      have h2 : maxR.toNat - c = (maxR.toNat - (c + 1)) + 1 := by omega
      rw [h2]
      simp [bindsOf, List.take_succ_cons, List.singleton_append, List.append_assoc]
      omega

/-- The tuple loop keeps `count` equal to the length of `results` whenever it
completes normally. -/
theorem walkTuples_done_len (maxR : Int) (after : Option PyExn) (ts : List SnmpTuple) :
    ∀ acc c rs n, acc.length = c →
      walkTuples maxR after ts acc c = WalkStep.done rs n → rs.length = n := by
  induction ts with
  | nil =>
    intro acc c rs n h hw
    cases after with
    | some e => simp [walkTuples] at hw
    | none =>
      simp [walkTuples] at hw
      rw [← hw.1, ← hw.2]
      exact h
  | cons t rest ih =>
    intro acc c rs n h hw
    cases hei : t.errorIndication with
    | some ind => simp [walkTuples, hei] at hw
    | none =>
      cases hes : t.errorStatus with
      | some es => simp [walkTuples, hei, hes] at hw
      | none =>
        have hlen := walkBinds_len maxR t.varBinds acc c h
        simp only [walkTuples, hei, hes] at hw
        split at hw
        · simp at hw
          rw [← hw.1, ← hw.2]
          exact hlen
        · exact ih _ _ rs n hlen hw

/-- Every early failure of the tuple loop is a `failDict`. -/
theorem walkTuples_failed_msg (maxR : Int) (after : Option PyExn) (ts : List SnmpTuple) :
    ∀ acc c d, walkTuples maxR after ts acc c = WalkStep.failed d →
      ∃ m, d = failDict m := by
  induction ts with
  | nil =>
    intro acc c d hw
    cases after with
    | some e => simp [walkTuples] at hw
    | none => simp [walkTuples] at hw
  | cons t rest ih =>
    intro acc c d hw
    cases hei : t.errorIndication with
    | some ind =>
      simp [walkTuples, hei] at hw
      exact ⟨errIndMsgWalk ind, hw.symm⟩
    | none =>
      cases hes : t.errorStatus with
      | some es =>
        simp [walkTuples, hei, hes] at hw
        exact ⟨errStatusMsgWalk es, hw.symm⟩
      | none =>
        simp only [walkTuples, hei, hes] at hw
        split at hw
        · simp at hw
        · exact ih _ _ d hw

/-- Exact description of a normal completion of the tuple loop when the cap
is at least one: the collected entries are the accumulator followed by the
first `maxR.toNat - c` bindings the agent produces, in traversal order. -/
theorem walkTuples_spec (maxR : Int) (after : Option PyExn) (ts : List SnmpTuple) :
    ∀ (acc : List (String × String)) (c : Nat) rs n, (c : Int) < maxR →
      walkTuples maxR after ts acc c = WalkStep.done rs n →
      rs = acc ++ (flatBinds ts).take (maxR.toNat - c) := by
  induction ts with
  | nil =>
    intro acc c rs n hc hw
    cases after with
    | some e => simp [walkTuples] at hw
    | none =>
      simp [walkTuples] at hw
      simp [flatBinds, hw.1]
  | cons t rest ih =>
    intro acc c rs n hc hw
    cases hei : t.errorIndication with
    | some ind => simp [walkTuples, hei] at hw
    | none =>
      cases hes : t.errorStatus with
      | some es => simp [walkTuples, hei, hes] at hw
      | none =>
        have hspec := walkBinds_spec maxR t.varBinds acc c hc
        simp only [walkTuples, hei, hes, hspec] at hw
        split at hw
        · rename_i hle
          simp at hw
          have hminge : t.varBinds.length ≥ maxR.toNat - c := by omega
          rw [← hw.1, flatBinds, List.take_append_eq_append_take]
          have hz : maxR.toNat - c - (bindsOf t.varBinds).length = 0 := by
            simp [bindsOf]
            omega
          rw [hz, List.take_zero, List.append_nil]
        · rename_i hle
          have hrec := ih _ _ rs n (by omega) hw
          have hminlen : min (maxR.toNat - c) t.varBinds.length = t.varBinds.length := by
            omega
          rw [hrec, flatBinds, List.take_append_eq_append_take]
          have htk : (bindsOf t.varBinds).take (maxR.toNat - c) = bindsOf t.varBinds := by
            apply List.take_of_length_le
            simp [bindsOf]
            omega
          have hsub : maxR.toNat - c - (bindsOf t.varBinds).length
              = maxR.toNat - (c + min (maxR.toNat - c) t.varBinds.length) := by
            simp [bindsOf]
            omega
          rw [htk, ← hsub]
          simp [List.append_assoc]

/-- Inversion for `walk_snmp_tree` returning a dictionary: it is either the
success dictionary coming from a normal completion of the tuple loop (with
`count` equal to the number of entries), or one of the failure
dictionaries. -/
theorem walk_ok_cases (mgr : SNMPManager) (oid : String) (maxR : Int) (net : Net)
    (d : PyDict) (tr : List NetOp)
    (hw : walk_snmp_tree mgr oid maxR net = (Except.ok d, tr)) :
    (∃ acc c, d = successWalkDict acc c ∧ acc.length = c
      ∧ walkTuples maxR net.run.after net.run.tuples [] 0 = WalkStep.done acc c
      ∧ validate_oid oid = true ∧ net.setup = none)
    ∨ (∃ m, d = failDict m) := by
  by_cases hv : validate_oid oid = false
  · right
    have hb : walk_snmp_tree mgr oid maxR net
        = (Except.ok (failDict invalidOidMsgWalk), []) := by
      simp [walk_snmp_tree, walkBody, hv]
    rw [hb] at hw
    simp [Prod.ext_iff] at hw
    exact ⟨invalidOidMsgWalk, hw.1.symm⟩
  · have hv1 : validate_oid oid = true := by
      revert hv
      cases validate_oid oid <;> simp
    cases hsetup : net.setup with
    | some e =>
      right
      have hb : walkBody mgr oid maxR net = (Except.error e, []) := by
        simp [walkBody, hv1, hsetup]
      cases e <;>
        · rw [walk_snmp_tree, hb] at hw
          simp [Prod.ext_iff] at hw
          exact ⟨_, hw.1.symm⟩
    | none =>
      cases hstep : walkTuples maxR net.run.after net.run.tuples [] 0 with
      | failed d2 =>
        right
        obtain ⟨m, hm2⟩ := walkTuples_failed_msg maxR net.run.after net.run.tuples [] 0 d2 hstep
        have hb : walkBody mgr oid maxR net = (Except.ok d2,
            [NetOp.mk mgr.target_host mgr.port mgr.community (normalizeOid oid)]) := by
          simp [walkBody, hv1, hsetup, hstep]
        rw [walk_snmp_tree, hb] at hw
        simp [Prod.ext_iff] at hw
        exact ⟨m, by rw [← hw.1, hm2]⟩
      | raised e =>
        right
        cases e with
        | attrError m =>
          have hb : walkBody mgr oid maxR net = (Except.ok (failDict (attrMsg m)),
              [NetOp.mk mgr.target_host mgr.port mgr.community (normalizeOid oid)]) := by
            simp [walkBody, hv1, hsetup, hstep]
          rw [walk_snmp_tree, hb] at hw
          simp [Prod.ext_iff] at hw
          exact ⟨_, hw.1.symm⟩
        | timeoutError m =>
          have hb : walkBody mgr oid maxR net = (Except.error (PyExn.timeoutError m),
              [NetOp.mk mgr.target_host mgr.port mgr.community (normalizeOid oid)]) := by
            simp [walkBody, hv1, hsetup, hstep]
          rw [walk_snmp_tree, hb] at hw
          simp [Prod.ext_iff] at hw
          exact ⟨_, hw.1.symm⟩
        | indexError m =>
          have hb : walkBody mgr oid maxR net = (Except.error (PyExn.indexError m),
              [NetOp.mk mgr.target_host mgr.port mgr.community (normalizeOid oid)]) := by
            simp [walkBody, hv1, hsetup, hstep]
          rw [walk_snmp_tree, hb] at hw
          simp [Prod.ext_iff] at hw
          exact ⟨_, hw.1.symm⟩
        | otherError m =>
          have hb : walkBody mgr oid maxR net = (Except.error (PyExn.otherError m),
              [NetOp.mk mgr.target_host mgr.port mgr.community (normalizeOid oid)]) := by
            simp [walkBody, hv1, hsetup, hstep]
          rw [walk_snmp_tree, hb] at hw
          simp [Prod.ext_iff] at hw
          exact ⟨_, hw.1.symm⟩
      | done acc c =>
        left
        have hb : walkBody mgr oid maxR net = (Except.ok (successWalkDict acc c),
            [NetOp.mk mgr.target_host mgr.port mgr.community (normalizeOid oid)]) := by
          simp [walkBody, hv1, hsetup, hstep]
        rw [walk_snmp_tree, hb] at hw
        simp [Prod.ext_iff] at hw
        exact ⟨acc, c, hw.1.symm,
          walkTuples_done_len maxR net.run.after net.run.tuples [] 0 acc c rfl hstep,
          rfl, hv1, rfl⟩

/-- Claim C2 counterexample: with `maxResults = 0` and an agent producing
one binding, the walk returns `Success` with `count = 1`, violating
`count <= N` — the loop appends a binding before checking the cap. -/
theorem walk_cap_counterexample :
    (walk_snmp_tree mgr0 "1.3.6" 0 netOneBinding).1
      = Except.ok (successWalkDict [("1.3.6.1.2.1.1.1.0", "Linux router")] 1)
    ∧ ¬ ((1 : Int) ≤ 0) :=
  ⟨rfl, by decide⟩

/-- Claim C2 amended: for every `maxResults = N ≥ 1`, a walk that returns
`Success` has `count ≤ N` and its entries are exactly the first `N` (or
fewer, if the traversal is exhausted) bindings the agent produced, in
traversal order; for `N ≤ 0` one binding can still be returned. -/
theorem walk_cap_amended (mgr : SNMPManager) (oid : String) (maxR : Int) (net : Net)
    (d : PyDict) (tr : List NetOp) (hm : 1 ≤ maxR)
    (hw : walk_snmp_tree mgr oid maxR net = (Except.ok d, tr))
    (hs : d.success = true) :
    d.results = some ((agentBindings net).take maxR.toNat)
    ∧ d.count = some ((agentBindings net).take maxR.toNat).length
    ∧ ((agentBindings net).take maxR.toNat).length ≤ maxR.toNat := by
  rcases walk_ok_cases mgr oid maxR net d tr hw with ⟨acc, c, hd, hlen, hdone, _, _⟩ | ⟨m, hd⟩
  · have hacc := walkTuples_spec maxR net.run.after net.run.tuples [] 0 acc c
      (by omega) hdone
    simp at hacc
    subst hd
    refine ⟨?_, ?_, ?_⟩
    · simp [successWalkDict, agentBindings, hacc]
    · simp [successWalkDict, agentBindings, ← hlen, hacc]
    · simp [List.length_take]
  · exfalso
    rw [hd] at hs
    simp [failDict] at hs

/-- Witness for the amended C2: `maxResults = 2` against an agent with three
bindings returns exactly the first two, in order. -/
theorem walk_cap_amended_witness :
    (successWalkDict [("1.3.6.1.2.1.1.1.0", "Linux router"),
        ("1.3.6.1.2.1.1.2.0", "1.3.6.1.4.1.8072")] 2).results
      = some ((agentBindings netThreeBindings).take (2 : Int).toNat)
    ∧ (successWalkDict [("1.3.6.1.2.1.1.1.0", "Linux router"),
        ("1.3.6.1.2.1.1.2.0", "1.3.6.1.4.1.8072")] 2).count
      = some ((agentBindings netThreeBindings).take (2 : Int).toNat).length
    ∧ ((agentBindings netThreeBindings).take (2 : Int).toNat).length ≤ (2 : Int).toNat :=
  walk_cap_amended mgr0 "1.3" 2 netThreeBindings
    (successWalkDict [("1.3.6.1.2.1.1.1.0", "Linux router"),
      ("1.3.6.1.2.1.1.2.0", "1.3.6.1.4.1.8072")] 2)
    [NetOp.mk "192.168.137.130" 161 "public" ".1.3"] (by decide) rfl rfl

/-- Claim C4 counterexample: `maxResults = 0` against an agent with two
bindings returns `Success` with `count = 1` and one entry, not `count = 0`
with an empty sequence. -/
theorem walk_zero_counterexample :
    (walk_snmp_tree mgr0 "1.3" 0 netTwoBindings).1
      = Except.ok (successWalkDict [("1.3.6.1.2.1.1.2.0", "1.3.6.1.4.1.8072")] 1)
    ∧ (1 : Nat) ≠ 0 :=
  ⟨rfl, by decide⟩

/-- Claim C4 amended: with `maxResults = 0` (or any nonpositive cap) a walk
that returns `Success` behaves like `maxResults = 1`: it carries at most one
entry — a prefix of the agent's bindings — with `count` equal to the number
of entries; `count = 0` happens only when no binding was yielded first. -/
theorem walk_zero_amended (mgr : SNMPManager) (oid : String) (maxR : Int) (net : Net)
    (d : PyDict) (tr : List NetOp) (hm : maxR ≤ 0)
    (hw : walk_snmp_tree mgr oid maxR net = (Except.ok d, tr))
    (hs : d.success = true) :
    ∃ rs, d.results = some rs ∧ d.count = some rs.length ∧ rs.length ≤ 1
      ∧ rs = (agentBindings net).take rs.length := by
  rcases walk_ok_cases mgr oid maxR net d tr hw with ⟨acc, c, hd, hlen, hdone, _, _⟩ | ⟨m, hd⟩
  · subst hd
    refine ⟨acc, by simp [successWalkDict], by simp [successWalkDict, hlen], ?_⟩
    cases hts : net.run.tuples with
    | nil =>
      rw [hts] at hdone
      cases hafter : net.run.after with
      | some e =>
        rw [hafter] at hdone
        simp [walkTuples] at hdone
      | none =>
        rw [hafter] at hdone
        simp [walkTuples] at hdone
        simp [hdone.1, agentBindings, hts, flatBinds]
    | cons t rest =>
      rw [hts] at hdone
      cases hei : t.errorIndication with
      | some ind => simp [walkTuples, hei] at hdone
      | none =>
        cases hes : t.errorStatus with
        | some es => simp [walkTuples, hei, hes] at hdone
        | none =>
          cases hvb : t.varBinds with
          | nil =>
            have hred : walkTuples maxR net.run.after (t :: rest) [] 0
                = WalkStep.done [] 0 := by
              simp [walkTuples, hei, hes, hvb, walkBinds, hm]
            rw [hred] at hdone
            simp at hdone
            simp [hdone.1, agentBindings, hts, flatBinds]
          | cons vb vbs2 =>
            have hwb : walkBinds maxR t.varBinds [] 0
                = ([(vb.oidStr, vb.valueStr)], 1) := by
              rw [hvb]
              simp only [walkBinds]
              split
              · rfl
              · rename_i hcon
                exact absurd (by omega) hcon
            have hred : walkTuples maxR net.run.after (t :: rest) [] 0
                = WalkStep.done [(vb.oidStr, vb.valueStr)] 1 := by
              simp only [walkTuples, hei, hes, hwb]
              split
              · rfl
              · rename_i hcon
                exact absurd (by omega) hcon
            rw [hred] at hdone
            simp at hdone
            obtain ⟨h1, h2⟩ := hdone
            subst h1
            simp [agentBindings, hts, flatBinds, hvb, bindsOf]
  · exfalso
    rw [hd] at hs
    simp [failDict] at hs

/-- Witness for the amended C4 at `maxResults = 0` against an agent with two
bindings. -/
theorem walk_zero_amended_witness :
    ∃ rs, (successWalkDict [("1.3.6.1.2.1.1.2.0", "1.3.6.1.4.1.8072")] 1).results = some rs
      ∧ (successWalkDict [("1.3.6.1.2.1.1.2.0", "1.3.6.1.4.1.8072")] 1).count
          = some rs.length
      ∧ rs.length ≤ 1
      ∧ rs = (agentBindings netTwoBindings).take rs.length :=
  walk_zero_amended mgr0 "1.3" 0 netTwoBindings
    (successWalkDict [("1.3.6.1.2.1.1.2.0", "1.3.6.1.4.1.8072")] 1)
    [NetOp.mk "192.168.137.130" 161 "public" ".1.3"] (by decide) rfl rfl

/-- Every `ret` the get-loop produces is a failure or a success dictionary. -/
theorem getTuples_ret_cases (after : Option PyExn) (ts : List SnmpTuple) :
    ∀ d, getTuples after ts = GetStep.ret d →
      (∃ m, d = failDict m) ∨ (∃ o v ty, d = successGetDict o v ty) := by
  induction ts with
  | nil =>
    intro d h
    cases after <;> simp [getTuples] at h
  | cons t rest ih =>
    intro d h
    cases hei : t.errorIndication with
    | some ind =>
      simp [getTuples, hei] at h
      exact Or.inl ⟨_, h.symm⟩
    | none =>
      cases hes : t.errorStatus with
      | some es =>
        simp only [getTuples, hei, hes] at h
        split at h
        · simp at h
          exact Or.inl ⟨_, h.symm⟩
        · cases hvb : t.varBinds.get? (t.errorIndex - 1) with
          | none =>
            rw [hvb] at h
            simp at h
          | some vb =>
            rw [hvb] at h
            simp at h
            exact Or.inl ⟨_, h.symm⟩
      | none =>
        cases hvb : t.varBinds with
        | nil =>
          simp only [getTuples, hei, hes, hvb] at h
          exact ih d h
        | cons vb vbs2 =>
          simp [getTuples, hei, hes, hvb] at h
          exact Or.inr ⟨_, _, _, h.symm⟩

/-- Inversion for `get_snmp_value` returning a dictionary: it is either a
failure dictionary or the first-varbind success dictionary. -/
theorem get_ok_cases (mgr : SNMPManager) (oid : String) (net : Net)
    (d : PyDict) (tr : List NetOp)
    (hg : get_snmp_value mgr oid net = (Except.ok d, tr)) :
    (∃ m, d = failDict m) ∨ (∃ o v ty, d = successGetDict o v ty) := by
  by_cases hv : validate_oid oid = false
  · left
    have hb : get_snmp_value mgr oid net = (Except.ok (failDict invalidOidMsgGet), []) := by
      simp [get_snmp_value, getBody, hv]
    rw [hb] at hg
    simp [Prod.ext_iff] at hg
    exact ⟨_, hg.1.symm⟩
  · have hv1 : validate_oid oid = true := by
      revert hv
      cases validate_oid oid <;> simp
    cases hsetup : net.setup with
    | some e =>
      left
      have hb : getBody mgr oid net = (Except.error e, []) := by
        simp [getBody, hv1, hsetup]
      cases e <;>
        · rw [get_snmp_value, hb] at hg
          simp [Prod.ext_iff] at hg
          exact ⟨_, hg.1.symm⟩
    | none =>
      cases hstep : getTuples net.run.after net.run.tuples with
      | ret d2 =>
        have hb : getBody mgr oid net = (Except.ok d2,
            [NetOp.mk mgr.target_host mgr.port mgr.community (normalizeOid oid)]) := by
          simp [getBody, hv1, hsetup, hstep]
        rw [get_snmp_value, hb] at hg
        simp [Prod.ext_iff] at hg
        rcases getTuples_ret_cases net.run.after net.run.tuples d2 hstep with
          ⟨m, hm2⟩ | ⟨o, v, ty, hsucc⟩
        · exact Or.inl ⟨m, by rw [← hg.1, hm2]⟩
        · exact Or.inr ⟨o, v, ty, by rw [← hg.1, hsucc]⟩
      | done =>
        left
        have hb : getBody mgr oid net = (Except.ok (failDict noDataMsg),
            [NetOp.mk mgr.target_host mgr.port mgr.community (normalizeOid oid)]) := by
          simp [getBody, hv1, hsetup, hstep]
        rw [get_snmp_value, hb] at hg
        simp [Prod.ext_iff] at hg
        exact ⟨_, hg.1.symm⟩
      | raised e =>
        left
        cases e with
        | attrError m =>
          have hb : getBody mgr oid net = (Except.ok (failDict (attrMsg m)),
              [NetOp.mk mgr.target_host mgr.port mgr.community (normalizeOid oid)]) := by
            simp [getBody, hv1, hsetup, hstep]
          rw [get_snmp_value, hb] at hg
          simp [Prod.ext_iff] at hg
          exact ⟨_, hg.1.symm⟩
        | timeoutError m =>
          have hb : getBody mgr oid net = (Except.error (PyExn.timeoutError m),
              [NetOp.mk mgr.target_host mgr.port mgr.community (normalizeOid oid)]) := by
            simp [getBody, hv1, hsetup, hstep]
          rw [get_snmp_value, hb] at hg
          simp [Prod.ext_iff] at hg
          exact ⟨_, hg.1.symm⟩
        | indexError m =>
          have hb : getBody mgr oid net = (Except.error (PyExn.indexError m),
              [NetOp.mk mgr.target_host mgr.port mgr.community (normalizeOid oid)]) := by
            simp [getBody, hv1, hsetup, hstep]
          rw [get_snmp_value, hb] at hg
          simp [Prod.ext_iff] at hg
          exact ⟨_, hg.1.symm⟩
        | otherError m =>
          have hb : getBody mgr oid net = (Except.error (PyExn.otherError m),
              [NetOp.mk mgr.target_host mgr.port mgr.community (normalizeOid oid)]) := by
            simp [getBody, hv1, hsetup, hstep]
          rw [get_snmp_value, hb] at hg
          simp [Prod.ext_iff] at hg
          exact ⟨_, hg.1.symm⟩

/-- Claim C10: every dictionary `get_snmp_value` or `walk_snmp_tree` returns
carries the boolean `success` tag with an error message present exactly when
`success` is false, and every walk `Success` satisfies
`count = length results`. -/
theorem results_wellformed (mgr : SNMPManager) (oid : String) (net : Net) (maxR : Int) :
    (∀ d tr, get_snmp_value mgr oid net = (Except.ok d, tr) →
      (d.error.isSome = true ↔ d.success = false))
    ∧ (∀ d tr, walk_snmp_tree mgr oid maxR net = (Except.ok d, tr) →
      ((d.error.isSome = true ↔ d.success = false)
        ∧ (d.success = true → ∃ rs, d.results = some rs ∧ d.count = some rs.length))) := by
  constructor
  · intro d tr hg
    rcases get_ok_cases mgr oid net d tr hg with ⟨m, h⟩ | ⟨o, v, ty, h⟩ <;>
      subst h <;> simp [failDict, successGetDict]
  · intro d tr hw
    rcases walk_ok_cases mgr oid maxR net d tr hw with ⟨acc, c, hd, hlen, _, _, _⟩ | ⟨m, hd⟩
    · subst hd
      exact ⟨by simp [successWalkDict],
        fun _ => ⟨acc, by simp [successWalkDict], by simp [successWalkDict, hlen]⟩⟩
    · subst hd
      exact ⟨by simp [failDict], fun h => absurd h (by simp [failDict])⟩

/-- Witness for C10 at concrete inputs: a no-data failure from the single
fetch and an empty success from the walk. -/
theorem results_wellformed_witness :
    ((failDict noDataMsg).error.isSome = true ↔ (failDict noDataMsg).success = false)
    ∧ (((successWalkDict [] 0).error.isSome = true
          ↔ (successWalkDict [] 0).success = false)
        ∧ ((successWalkDict [] 0).success = true →
          ∃ rs, (successWalkDict [] 0).results = some rs
            ∧ (successWalkDict [] 0).count = some rs.length)) :=
  ⟨(results_wellformed mgr0 "1.3" netEmpty 10).1 (failDict noDataMsg)
      [NetOp.mk "192.168.137.130" 161 "public" ".1.3"] rfl,
   (results_wellformed mgr0 "1.3" netEmpty 10).2 (successWalkDict [] 0)
      [NetOp.mk "192.168.137.130" 161 "public" ".1.3"] rfl⟩

/-- Claim C6 counterexample: the reconfiguration handler installs the
out-of-range port 70000 (greater than 65535) and answers with the success
reply, instead of rejecting it. -/
theorem config_range_counterexample :
    (snmp_config bot0 ["10.0.0.5", "public", "70000"]).1.snmp_manager.port = 70000
    ∧ (snmp_config bot0 ["10.0.0.5", "public", "70000"]).2
        = configUpdatedReply "10.0.0.5" "public" 70000
    ∧ 65535 < (70000 : Int) := by
  exact ⟨rfl, rfl, by decide⟩

/-- Claim C6 amended: the handler rejects a non-numeric port string with the
invalid-port reply and leaves the state unchanged, but performs no range
check at all — every integer the port string parses to, in range or not
(0, 70000, even negative), is installed into the configuration. -/
theorem config_range_amended (bot : BotState) (host comm pstr : String) :
    (pyInt pstr = none →
      snmp_config bot [host, comm, pstr] = (bot, invalidPortReply))
    ∧ (∀ p : Int, pyInt pstr = some p →
      snmp_config bot [host, comm, pstr]
        = (update_snmp_config bot host comm p, configUpdatedReply host comm p)) := by
  constructor
  · intro h
    simp [snmp_config, h]
  · intro p h
    simp [snmp_config, h]

/-- Witness for the amended C6: rejection of a non-numeric port and
installation of the out-of-range port 70000. -/
theorem config_range_amended_witness :
    snmp_config bot0 ["192.168.1.1", "private", "xyz"] = (bot0, invalidPortReply)
    ∧ snmp_config bot0 ["192.168.1.1", "private", "70000"]
        = (update_snmp_config bot0 "192.168.1.1" "private" 70000,
           configUpdatedReply "192.168.1.1" "private" 70000) :=
  ⟨(config_range_amended bot0 "192.168.1.1" "private" "xyz").1 (by decide),
   (config_range_amended bot0 "192.168.1.1" "private" "70000").2 70000 (by decide)⟩

/-- Claim C7: a non-numeric port string makes the handler answer with the
invalid-port reply — distinguishable from the generic configuration-error
reply — and return the bot state unchanged: the `int` conversion happens
before any mutation. -/
theorem config_nonnumeric_unchanged (bot : BotState) (host comm pstr : String)
    (rest : List String) (h : pyInt pstr = none) :
    snmp_config bot (host :: comm :: pstr :: rest) = (bot, invalidPortReply)
    ∧ invalidPortReply ≠ "❌ An error occurred while updating configuration." := by
  constructor
  · simp [snmp_config, h]
  · decide

/-- Witness for C7 at a concrete non-numeric port. -/
theorem config_nonnumeric_unchanged_witness :
    snmp_config bot0 ["10.1.2.3", "public", "oops"] = (bot0, invalidPortReply)
    ∧ invalidPortReply ≠ "❌ An error occurred while updating configuration." :=
  config_nonnumeric_unchanged bot0 "10.1.2.3" "public" "oops" [] (by decide)

/-- Claim C9: a successful reconfiguration replaces the manager wholesale —
every field takes exactly the supplied value, nothing merged from the prior
one; the next call's single request is built from the new host, port and
community; and a call that snapshotted its configuration before the
reconfiguration computes the same outcome whatever the reconfiguration
writes. -/
theorem config_replace_wholesale (bot : BotState) (host comm : String) (p : Int)
    (oid : String) (net : Net) (host2 comm2 : String) (p2 : Int) :
    (update_snmp_config bot host comm p).snmp_manager = SNMPManager.mk host comm p
    ∧ (validate_oid oid = true → net.setup = none →
        (get_snmp_value (update_snmp_config bot host comm p).snmp_manager oid net).2
          = [NetOp.mk host p comm (normalizeOid oid)])
    ∧ (inflightSnapshot bot oid net host comm p).1
        = (inflightSnapshot bot oid net host2 comm2 p2).1 := by
  refine ⟨rfl, ?_, rfl⟩
  intro hv hs
  rw [get_trace_eq_body]
  exact getBody_trace (SNMPManager.mk host comm p) oid net hv hs

/-- Witness for C9 at concrete values. -/
theorem config_replace_wholesale_witness :
    (update_snmp_config bot0 "10.9.9.9" "secret" 1161).snmp_manager
      = SNMPManager.mk "10.9.9.9" "secret" 1161
    ∧ (get_snmp_value (update_snmp_config bot0 "10.9.9.9" "secret" 1161).snmp_manager
        "1.3" netOneBinding).2 = [NetOp.mk "10.9.9.9" 1161 "secret" (normalizeOid "1.3")]
    ∧ (inflightSnapshot bot0 "1.3" netOneBinding "10.9.9.9" "secret" 1161).1
        = (inflightSnapshot bot0 "1.3" netOneBinding "10.0.0.1" "public" 161).1 :=
  ⟨(config_replace_wholesale bot0 "10.9.9.9" "secret" 1161 "1.3" netOneBinding
      "10.0.0.1" "public" 161).1,
   (config_replace_wholesale bot0 "10.9.9.9" "secret" 1161 "1.3" netOneBinding
      "10.0.0.1" "public" 161).2.1 (by decide) rfl,
   (config_replace_wholesale bot0 "10.9.9.9" "secret" 1161 "1.3" netOneBinding
      "10.0.0.1" "public" 161).2.2⟩

end Telman
